import Mathlib

/-!
# Path registry handlers of `internal/pprof/pprof.go`

The three HTTP handlers `addrtspurl`, `getrtspurls` and `deletertspurl` edit and
read a line-structured configuration file (the artifact).  The edits are made by
running the external stream editor (`sed` on Linux, `gsed` on Darwin, both GNU
sed) on the file; the handlers build the editor scripts with `fmt.Sprintf`.

The embedding keeps the Go code as it is and gives the three script shapes the
handlers build their GNU sed meaning:

* `/paths:/a\TEXT` run with `-i`: after every line selected by the address
  `/paths:/` the lines of `TEXT` are written, where an escape `\n` inside
  `TEXT` is a line break;
* `/NAME/=` run with `-n`: the number of every line selected by the address
  `/NAME/` is printed, one per line; the file is not touched; a name that holds
  `/=;/` closes the address and the script is then several such commands;
* `A,Bd` run with `-i`: the lines numbered `A` to `B` are removed.

Strings are lists of characters, the artifact is the list of its lines, and the
configuration file is taken to be readable and writable by the editor.  The
operating system starts the editor only when the script can be passed as an
argument: it holds no NUL byte and is shorter than the Linux limit on one
argument; otherwise `CombinedOutput` returns an error and nothing is run.
-/

namespace Pprof

/-- A Go string, as its sequence of characters. -/
abbrev Str := List Char

/-! ## Data model -/

/-- The field of `conf.PathConf` the handlers read. -/
structure PathConf where
  Source : Str
deriving DecidableEq

/-- The part of `conf.Conf` the handlers read: the port, the `Paths` map in its
iteration order, and the method `NameIsExist`, whose body is in package `conf`
and is taken as given. -/
structure Conf where
  RtspPort : Int
  Paths : List (Str × PathConf)
  NameIsExist : Str → Bool

/-- Go type `urlStruct`. -/
structure urlStruct where
  Name : Str
  TargetURL : Str
  SourceURL : Str
deriving DecidableEq

/-- The values the handlers store in `Resp.Data` (an `interface{}`): the empty
string, the one-key map `newURL`, or the slice `urls`. -/
inductive Data where
  | str (s : Str)
  | newURL (name url : Str)
  | urls (us : List urlStruct)
deriving DecidableEq

/-- Go type `Resp`. -/
structure Resp where
  Code : Nat
  Msg : Str
  Data : Data
deriving DecidableEq

/-- What `exec.Cmd.CombinedOutput` gives back, together with the artifact the
editor leaves behind: `err` is true when the editor exits with a non-zero
status. -/
structure Exec where
  out : Str
  err : Bool
  file : List Str
deriving DecidableEq

/-! ## Go library functions -/

/-- Function `strings.Split(s, sep)` for a one-character separator. -/
def Split (sep : Char) : Str → List Str
  | [] => [[]]
  | c :: cs =>
    if c = sep then [] :: Split sep cs
    else
      match Split sep cs with
      | [] => [[c]]
      | f :: fs => (c :: f) :: fs

/-- Function `strings.Replace(s, old, "", -1)` for a one-character `old`. -/
def Replace (old : Char) (s : Str) : Str :=
  s.filter (fun c => c != old)

/-- Decimal digits of a natural number, as `fmt` and `strconv` print them. -/
def natDec (n : Nat) : Str :=
  Nat.toDigits 10 n

/-- Function `strconv.Itoa`, also the verb `%d` of `fmt.Sprintf`. -/
def Itoa (i : Int) : Str :=
  match i with
  | Int.ofNat n => natDec n
  | Int.negSucc n => '-' :: natDec (n + 1)

/-- Largest `uint64`. -/
def maxUint64 : Nat := 2 ^ 64 - 1

/-- Largest `int` of a 64-bit Go platform. -/
def maxInt64 : Int := 2 ^ 63 - 1

/-- Result of the digit loop of `strconv.ParseUint`. -/
inductive ParseRes where
  | ok (n : Nat)
  | range
  | bad
deriving DecidableEq

/-- The digit loop of `strconv.ParseUint(s, 10, 64)`: a character that is not a
decimal digit is a syntax error, a value above the largest `uint64` is a range
error, and the loop stops at the first of them. -/
def parseUintLoop : Str → Nat → ParseRes
  | [], n => ParseRes.ok n
  | c :: cs, n =>
    if '0' ≤ c ∧ c ≤ '9' then
      if n * 10 + (c.toNat - 48) > maxUint64 then ParseRes.range
      else parseUintLoop cs (n * 10 + (c.toNat - 48))
    else ParseRes.bad

/-- Function `strconv.ParseUint(s, 10, 64)` without its error value. -/
def ParseUint (s : Str) : ParseRes :=
  match s with
  | [] => ParseRes.bad
  | _ => parseUintLoop s 0

/-- The value `strconv.Atoi` returns (the caller drops the error): `0` on a
syntax error, the nearest bound of `int` on a range error. -/
def Atoi (s : Str) : Int :=
  match s with
  | [] => 0
  | c :: cs =>
    let neg := c = '-'
    let body := if c = '-' ∨ c = '+' then cs else c :: cs
    match ParseUint body with
    | ParseRes.bad => 0
    | ParseRes.range => if neg then -(2 ^ 63) else maxInt64
    | ParseRes.ok un =>
      if ¬ neg ∧ (un : Int) ≥ 2 ^ 63 then maxInt64
      else if neg ∧ (un : Int) > 2 ^ 63 then -(2 ^ 63)
      else if neg then -(un : Int) else (un : Int)

/-- Go `int` arithmetic wraps around at 64 bits. -/
def wrapInt64 (x : Int) : Int :=
  (x + 2 ^ 63) % 2 ^ 64 - 2 ^ 63

/-! ## The external stream editor -/

/-- The text of a one-line `a\TEXT` command of GNU sed, as the lines it stands
for: `\n` is a line break.  The embedding covers the texts in which every
backslash starts such a `\n` and which hold no raw line feed (a raw line feed
ends the command and starts another one); on every other text the result is
`none`. -/
def sedText : Str → Option (List Str)
  | [] => some [[]]
  | c :: cs =>
    if c = '\n' then none
    else if c = '\\' then
      match cs with
      | d :: ds =>
        if d = 'n' then
          match sedText ds with
          | some ls => some ([] :: ls)
          | none => none
        else none
      | [] => none
    else
      match sedText cs with
      | some [] => some [[c]]
      | some (l :: ls) => some ((c :: l) :: ls)
      | none => none

/-- One pass of the editor with an `a` command: every line is written out, and
each selected line is followed by the text block. -/
def appendAfter (sel : Str → Bool) (block : List Str) : List Str → List Str
  | [] => []
  | l :: ls =>
    if sel l then l :: (block ++ appendAfter sel block ls)
    else l :: appendAfter sel block ls

/-- Length of a string in bytes (Go strings are UTF-8). -/
def byteLen (s : Str) : Nat :=
  (s.map Char.utf8Size).sum

/-- The Linux limit on one argument of a new process (`MAX_ARG_STRLEN`, 32
pages of 4096 bytes), the closing NUL included. -/
def maxArgStrlen : Nat := 131072

/-- Whether `exec.Command(cmd, flag, script, srcfile)` can start the editor
with this script: an argument with a NUL byte is refused by Go with `EINVAL`,
an argument of `maxArgStrlen` bytes or more by the kernel with `E2BIG`. -/
def execStarts (script : Str) : Bool :=
  script.all (fun c => c != Char.ofNat 0) && decide (byteLen script < maxArgStrlen)

/-- Command `sed -i '/PAT/a\TEXT' file`.  The argument `re` is the regular
expression search of the editor: `re pat line` tells whether the address
`/pat/` selects `line`.  When the editor cannot be started the call returns an
error and the file is not touched; otherwise, inside the modelled texts, the
script is well formed and the editor exits with status 0. -/
def sedAppend (re : Str → Str → Bool) (pat text : Str) (file : List Str) : Option Exec :=
  if execStarts ('/' :: pat ++ "/a\\".toList ++ text) then
    match sedText text with
    | none => none
    | some block => some { out := [], err := false, file := appendAfter (re pat) block file }
  else some { out := [], err := true, file := file }

/-- A name that is the whole body of an address `/NAME/`: it is not empty and
holds no `/`, no backslash and no line feed, so that the script `/NAME/=` is
the single command `=` under that address. -/
def isAddressBody (name : Str) : Bool :=
  !name.isEmpty && name.all (fun c => c != '/' && c != '\\' && c != '\n')

/-- The numbers of the lines one address selects, the first line of the list
having number `k`: what `lineNumbers` gives for a single command. -/
def selectedNumbers (sel : Str → Bool) : Nat → List Str → List Nat
  | _, [] => []
  | k, l :: ls =>
    if sel l then k :: selectedNumbers sel (k + 1) ls
    else selectedNumbers sel (k + 1) ls

/-- What the command `=` prints for the given line numbers: each number in
decimal followed by a line feed. -/
def printNumbers : List Nat → Str
  | [] => []
  | n :: ns => natDec n ++ '\n' :: printNumbers ns

/-- The script of `deletertspurl`: `fmt.Sprintf("/%s/=", name)`. -/
def deleteScript (name : Str) : Str :=
  '/' :: name ++ "/=".toList

/-- Reads the body of an address up to the closing `/`: the body and the rest
of the script.  A body with a backslash or a line feed is not covered. -/
def readAddress : Str → Option (Str × Str)
  | [] => none
  | c :: cs =>
    if c = '/' then some ([], cs)
    else if c = '\\' ∨ c = '\n' then none
    else
      match readAddress cs with
      | some (b, r) => some (c :: b, r)
      | none => none

/-- Reads a script made of commands `/BODY/=` separated by `;`, the shapes the
script of `deletertspurl` takes when the name is an address body or holds
`/=;/` between address bodies: the list of the bodies.  Every other script is
not covered (`none`).  The first argument bounds the number of commands; the
length of the script is enough. -/
def parseNumberCmds : Nat → Str → Option (List Str)
  | 0, _ => none
  | fuel + 1, s =>
    match s with
    | [] => none
    | c :: cs =>
      if c = '/' then
        match readAddress cs with
        | none => none
        | some (body, r) =>
          if body = [] then none
          else if r = ['='] then some [body]
          else
            match r with
            | e :: d :: r' =>
              if e = '=' ∧ d = ';' then
                match parseNumberCmds fuel r' with
                | some ps => some (body :: ps)
                | none => none
              else none
            | _ => none
      else none

/-- What the commands `/BODY/=` print, as numbers: the editor takes the lines
in order, the first having number `k`, and on each line runs the commands in
order; a command whose address selects the line prints its number. -/
def lineNumbers (re : Str → Str → Bool) (pats : List Str) : Nat → List Str → List Nat
  | _, [] => []
  | k, l :: ls =>
    ((pats.filter (fun p => re p l)).map (fun _ => k)) ++ lineNumbers re pats (k + 1) ls

/-- Command `sed -n '/NAME/=' file`: prints the number of every selected line
and leaves the file alone.  A script of another shape than the ones read by
`parseNumberCmds` is not covered (`none`).  A pattern the editor rejects, or a
name with which the editor cannot be started, selects no line under `re`: what
the call returns then is not a number either. -/
def sedLineNumbers (re : Str → Str → Bool) (name : Str) (file : List Str) : Option Exec :=
  match parseNumberCmds (deleteScript name).length (deleteScript name) with
  | none => none
  | some pats =>
    some { out := printNumbers (lineNumbers re pats 1 file), err := false, file := file }

/-- One pass of the editor with the command `first,lastd`, the first line of
the list having number `k`: a line is dropped when its number lies in the
range; a range whose end is below its start covers the start line only. -/
def dropLines (first last : Nat) : Nat → List Str → List Str
  | _, [] => []
  | k, l :: ls =>
    if first ≤ k ∧ k ≤ max first last then dropLines first last (k + 1) ls
    else l :: dropLines first last (k + 1) ls

/-- Command `sed -i 'FIRST,LASTd' file` for a script printed from two Go
integers with `%d,%dd`, `FIRST` being positive: a negative `LAST` is not an
address, the editor rejects the script and the file stays as it is (the
diagnostic it prints is dropped by the caller and left out). -/
def sedDelete (first last : Int) (file : List Str) : Exec :=
  if last < 0 then { out := [], err := true, file := file }
  else { out := [], err := false, file := dropLines first.toNat last.toNat 1 file }

/-! ## The handlers -/

/-- The editor the handlers run, chosen from `runtime.GOOS`: `gsed` on Darwin
and `sed` elsewhere, GNU sed in both cases, so the choice does not change what
the scripts do. -/
def editorName (goos : Str) : Str :=
  if goos = "darwin".toList then "gsed".toList else "sed".toList

/-- The fixed anchor pattern of `addrtspurl`. -/
def anchor : Str := "paths:".toList

/-- The first component of `strings.Split(request.Host, ":")`. -/
def hostName (host : Str) : Str :=
  (Split ':' host).headD []

/-- Expression `fmt.Sprintf("rtsp://%s:%s/%s", strings.Split(request.Host, ":")[0],
strconv.Itoa(pp.conf.RtspPort), name)`. -/
def rtspURL (conf : Conf) (host name : Str) : Str :=
  "rtsp://".toList ++ hostName host ++ ":".toList ++ Itoa conf.RtspPort ++ "/".toList ++ name

/-- The map `newURL` of `addrtspurl`. -/
def newURL (conf : Conf) (host name : Str) : Data :=
  Data.newURL name (rtspURL conf host name)

/-- The text after `/paths:/a\` in the script of `addrtspurl`:
`fmt.Sprintf("  %s:\\n    source: %s\\n    sourceOnDemand: yes", name, url)`. -/
def addText (name url : Str) : Str :=
  "  ".toList ++ name ++ ":\\n    source: ".toList ++ url ++ "\\n    sourceOnDemand: yes".toList

/-- The script of `addrtspurl`:
`fmt.Sprintf("/paths:/a\\  %s:\\n    source: %s\\n    sourceOnDemand: yes", name, url)`. -/
def addScript (name url : Str) : Str :=
  '/' :: anchor ++ "/a\\".toList ++ addText name url

/-- Handler `addrtspurl`, on the decoded request fields `name` and `url`:
the response and the artifact after the call. -/
def addrtspurl (re : Str → Str → Bool) (conf : Conf) (host name url : Str)
    (file : List Str) : Option (Resp × List Str) :=
  if conf.NameIsExist name then
    some ({ Code := 100002, Msg := "rtsp url already exist".toList, Data := newURL conf host name },
      file)
  else
    match sedAppend re anchor (addText name url) file with
    | none => none
    | some r =>
      if r.err then
        some ({ Code := 100001, Msg := "添加失败".toList, Data := Data.str [] }, r.file)
      else
        some ({ Code := 100000, Msg := "添加成功".toList, Data := newURL conf host name }, r.file)

/-- Handler `getrtspurls`: one `urlStruct` per item of `conf.Paths`. -/
def getrtspurls (conf : Conf) (host : Str) : Resp :=
  { Code := 100000
    Msg := "获取摄像头列表成功".toList
    Data := Data.urls (conf.Paths.map (fun e =>
      { Name := e.1, SourceURL := e.2.Source, TargetURL := rtspURL conf host e.1 })) }

/-- Handler `deletertspurl`, on the decoded request field `name`: the response
and the artifact after the call. -/
def deletertspurl (re : Str → Str → Bool) (name : Str) (file : List Str) :
    Option (Resp × List Str) :=
  match sedLineNumbers re name file with
  | none => none
  | some r1 =>
    let colnumInt := Atoi (Replace '\n' r1.out)
    let r2 : Exec :=
      if colnumInt > 0 then sedDelete colnumInt (wrapInt64 (colnumInt + 2)) file
      else { out := [], err := false, file := file }
    if r2.err then
      some ({ Code := 100001, Msg := "删除失败".toList, Data := Data.str [] }, r2.file)
    else
      some ({ Code := 100000, Msg := "删除成功".toList, Data := Data.str [] }, r2.file)

/-- Search for a pattern free of metacharacters: such a basic regular
expression selects exactly the lines that hold it as a substring. -/
def litSearch (pat : Str) : Str → Bool
  | [] => pat.isEmpty
  | c :: cs => pat.isPrefixOf (c :: cs) || litSearch pat cs

/-- The first line of the block `addrtspurl` writes. -/
def nameLine (name : Str) : Str :=
  "  ".toList ++ name ++ ":".toList

/-- The second line of the block `addrtspurl` writes. -/
def sourceLine (url : Str) : Str :=
  "    source: ".toList ++ url

/-- The third line of the block `addrtspurl` writes. -/
def flagLine : Str :=
  "    sourceOnDemand: yes".toList

/-- A string without line feed and without backslash. -/
def isPlain (s : Str) : Bool :=
  s.all (fun c => c != '\n' && c != '\\')

/-- The block of three lines one entry occupies. -/
def block3 (name url : Str) : List Str :=
  [nameLine name, sourceLine url, flagLine]

/-- The lines of the blocks of a list of entries `(name, source)`, in order. -/
def blocks : List (Str × Str) → List Str
  | [] => []
  | e :: es => block3 e.1 e.2 ++ blocks es

/-- The response of a successful `addrtspurl`. -/
def addOk (conf : Conf) (host name : Str) : Resp :=
  { Code := 100000, Msg := "添加成功".toList, Data := newURL conf host name }

/-- The response of `addrtspurl` when the editor call returns an error. -/
def addFailed : Resp :=
  { Code := 100001, Msg := "添加失败".toList, Data := Data.str [] }

/-- The response of a successful `deletertspurl`. -/
def deleteOk : Resp :=
  { Code := 100000, Msg := "删除成功".toList, Data := Data.str [] }

/-- A mirror without entries, listening on the default port. -/
def emptyMirror : Conf :=
  { RtspPort := 8554, Paths := [], NameIsExist := fun _ => false }

/-- Insertion as the specification words it: the block goes after the first
selected line only. -/
def specInsertAfterFirst (sel : Str → Bool) (block : List Str) : List Str → List Str
  | [] => []
  | l :: ls =>
    if sel l then l :: (block ++ ls)
    else l :: specInsertAfterFirst sel block ls

/-- Deletion as the specification words it: with `L` the number of the first
selected line, the lines `L`, `L+1` and `L+2` are removed. -/
def specDeleteFirstMatch (sel : Str → Bool) : List Str → List Str
  | [] => []
  | l :: ls =>
    if sel l then ls.drop 2
    else l :: specDeleteFirstMatch sel ls

/-- A pattern without metacharacter: no address delimiter, backslash, line
feed, dot, star, bracket, caret or dollar. -/
def isLiteralPattern (name : Str) : Bool :=
  name.all (fun c => c != '/' && c != '\\' && c != '\n' && c != '.' && c != '*'
    && c != '[' && c != ']' && c != '^' && c != '$')

/-- A call of one of the two mutating handlers, with the request host and the
decoded request fields. -/
inductive Call where
  | add (host name url : Str)
  | delete (name : Str)

/-- The artifact after one call.  The mirror in effect during the call is
`mirror file`: a constant function is a mirror that is never reloaded, a
function of the artifact is a mirror reloaded before the call. -/
def step (re : Str → Str → Bool) (mirror : List Str → Conf) (file : List Str) :
    Call → Option (List Str)
  | Call.add host name url => (addrtspurl re (mirror file) host name url file).map Prod.snd
  | Call.delete name => (deletertspurl re name file).map Prod.snd

/-- The artifact after a sequence of calls. -/
def run (re : Str → Str → Bool) (mirror : List Str → Conf) : List Call → List Str →
    Option (List Str)
  | [], file => some file
  | c :: cs, file =>
    match step re mirror file c with
    | none => none
    | some file' => run re mirror cs file'

/-- Calls whose scripts are inside the modelled ones and whose blocks cannot be
mistaken for an anchor or a name line: an added name and source hold no line
feed and no backslash, the source does not end in a colon, and no line of the
block is selected by the anchor; a deleted name is an address body. -/
def callOK (re : Str → Str → Bool) : Call → Bool
  | Call.add _ name url =>
    isPlain name && isPlain url && (url.getLast? != some ':')
      && !re anchor (nameLine name) && !re anchor (sourceLine url) && !re anchor flagLine
  | Call.delete name => isAddressBody name

/-- A mirror reloaded from the artifact: it reports a name exactly when the
name line of that name is in the artifact. -/
def reloadedMirror (file : List Str) : Conf :=
  { RtspPort := 8554, Paths := [], NameIsExist := fun n => decide (nameLine n ∈ file) }

/-- A decimal digit. -/
def isDig (c : Char) : Prop :=
  '0' ≤ c ∧ c ≤ '9'

/-! ## Decimal printing and parsing -/

theorem digitChar_isDig (m : Nat) (h : m < 10) :
    isDig (Nat.digitChar m) ∧ (Nat.digitChar m).toNat - 48 = m := by
  unfold isDig
  interval_cases m <;> decide

theorem toDigitsCore_isDig (f : Nat) : ∀ (n : Nat) (ds : Str),
    (∀ c ∈ ds, isDig c) → ∀ c ∈ Nat.toDigitsCore 10 f n ds, isDig c := by
  induction f with
  | zero => intro n ds h c hc; simpa [Nat.toDigitsCore] using h c hc
  | succ f ih =>
    intro n ds h c hc
    have hd : isDig (Nat.digitChar (n % 10)) := (digitChar_isDig _ (Nat.mod_lt _ (by omega))).1
    have hall : ∀ c ∈ Nat.digitChar (n % 10) :: ds, isDig c := by
      intro c hc
      rcases List.mem_cons.1 hc with rfl | hc
      · exact hd
      · exact h c hc
    simp only [Nat.toDigitsCore] at hc
    split at hc
    · exact hall c hc
    · exact ih _ _ hall c hc

theorem natDec_isDig (n : Nat) : ∀ c ∈ natDec n, isDig c :=
  toDigitsCore_isDig _ _ _ (by simp)

theorem parse_toDigitsCore (f : Nat) : ∀ (n : Nat) (ds : Str), n < f → n ≤ maxUint64 →
    parseUintLoop (Nat.toDigitsCore 10 f n ds) 0 = parseUintLoop ds n := by
  induction f with
  | zero => intro n ds h; omega
  | succ f ih =>
    intro n ds hlt hmax
    obtain ⟨⟨h0, h9⟩, hv⟩ := digitChar_isDig (n % 10) (Nat.mod_lt _ (by omega))
    have hstep : ∀ a, a * 10 + n % 10 ≤ maxUint64 →
        parseUintLoop (Nat.digitChar (n % 10) :: ds) a = parseUintLoop ds (a * 10 + n % 10) := by
      intro a ha
      simp only [parseUintLoop, h0, h9, and_self, if_true, hv]
      rw [if_neg (by omega)]
    simp only [Nat.toDigitsCore]
    split
    · rename_i hz
      have hn : n % 10 = n := by omega
      rw [hstep 0 (by omega)]
      simp [hn]
    · rename_i hz
      rw [ih (n / 10) _ (by omega) (by omega), hstep (n / 10) (by omega)]
      congr 1
      omega

theorem parse_natDec (n : Nat) (h : n ≤ maxUint64) :
    parseUintLoop (natDec n) 0 = ParseRes.ok n := by
  unfold natDec Nat.toDigits
  rw [parse_toDigitsCore _ _ _ (by omega) h]
  rfl

theorem toDigitsCore_ne_nil (f : Nat) : ∀ (n : Nat) (ds : Str), ds ≠ [] →
    Nat.toDigitsCore 10 f n ds ≠ [] := by
  induction f with
  | zero => intro n ds h; simpa [Nat.toDigitsCore] using h
  | succ f ih =>
    intro n ds _
    simp only [Nat.toDigitsCore]
    split
    · simp
    · exact ih _ _ (by simp)

theorem natDec_ne_nil (n : Nat) : natDec n ≠ [] := by
  unfold natDec Nat.toDigits
  simp only [Nat.toDigitsCore]
  split
  · simp
  · exact toDigitsCore_ne_nil _ _ _ (by simp)

theorem isDig_ne_sign (c : Char) (h : isDig c) : c ≠ '-' ∧ c ≠ '+' ∧ c ≠ '\n' := by
  refine ⟨?_, ?_, ?_⟩ <;> (rintro rfl; revert h; unfold isDig; decide)

theorem Replace_natDec (n : Nat) : Replace '\n' (natDec n) = natDec n := by
  unfold Replace
  rw [List.filter_eq_self]
  intro c hc
  simpa using (isDig_ne_sign c (natDec_isDig n c hc)).2.2

theorem Atoi_natDec (n : Nat) (h : (n : Int) ≤ maxInt64) : Atoi (natDec n) = n := by
  have hne := natDec_ne_nil n
  have hp := parse_natDec n (by unfold maxInt64 at h; unfold maxUint64; omega)
  have hd := natDec_isDig n
  cases hs : natDec n with
  | nil => exact absurd hs hne
  | cons c cs =>
    rw [hs] at hp hd
    obtain ⟨h1, h2, _⟩ := isDig_ne_sign c (hd c (by simp))
    unfold maxInt64 at h
    simp only [Atoi, ParseUint, h1, h2, or_self, if_false, hp]
    rw [if_neg (by omega), if_neg (by simp)]

/-- What the editor prints for one selected line parses back to its number. -/
theorem Atoi_printNumbers_single (n : Nat) (h : (n : Int) ≤ maxInt64) :
    Atoi (Replace '\n' (printNumbers [n])) = n := by
  have : Replace '\n' (printNumbers [n]) = natDec n := by
    simp only [printNumbers]
    unfold Replace
    rw [List.filter_append]
    have := Replace_natDec n
    unfold Replace at this
    rw [this]
    simp
  rw [this, Atoi_natDec n h]

/-! ## The text of the `a` command -/

theorem sedText_cons_plain (c : Char) (cs : Str) (h1 : c ≠ '\n') (h2 : c ≠ '\\') :
    sedText (c :: cs) =
      match sedText cs with
      | some [] => some [[c]]
      | some (l :: ls) => some ((c :: l) :: ls)
      | none => none := by
  have e : sedText (c :: cs) = (if c = '\n' then none
    else if c = '\\' then
      match cs with
      | d :: ds =>
        if d = 'n' then
          match sedText ds with
          | some ls => some ([] :: ls)
          | none => none
        else none
      | [] => none
    else
      match sedText cs with
      | some [] => some [[c]]
      | some (l :: ls) => some ((c :: l) :: ls)
      | none => none) := by
    cases cs <;> rfl
  rw [e, if_neg h1, if_neg h2]

theorem sedText_plain_append (s t l : Str) (ls : List Str) (hs : isPlain s = true)
    (ht : sedText t = some (l :: ls)) : sedText (s ++ t) = some ((s ++ l) :: ls) := by
  induction s with
  | nil => simpa using ht
  | cons c s ih =>
    simp only [isPlain, List.all_cons, Bool.and_eq_true, bne_iff_ne, ne_eq] at hs
    have ih := ih (by simpa [isPlain] using hs.2)
    rw [List.cons_append, sedText_cons_plain _ _ hs.1.1 hs.1.2, ih]
    rfl

theorem sedText_break (t : Str) (ls : List Str) (ht : sedText t = some ls) :
    sedText ('\\' :: 'n' :: t) = some ([] :: ls) := by
  have h1 : ¬ ('\\' = '\n') := by decide
  simp only [sedText, h1, if_false, if_true, ht]

theorem sedText_addText (name url : Str) (hn : isPlain name = true) (hu : isPlain url = true) :
    sedText (addText name url) = some [nameLine name, sourceLine url, flagLine] := by
  have h3 : sedText ("\\n    sourceOnDemand: yes".toList) = some [[], flagLine] := by decide
  have h2 := sedText_plain_append url _ [] [flagLine] hu h3
  have h1 := sedText_plain_append "    source: ".toList _ _ _ (by decide) h2
  have h0 := sedText_break _ _ h1
  have hc := sedText_plain_append ":".toList _ [] _ (by decide) h0
  have hm := sedText_plain_append name _ _ _ hn hc
  have ht := sedText_plain_append "  ".toList _ _ _ (by decide) hm
  have e : addText name url = "  ".toList ++ (name ++ (":".toList ++
      '\\' :: 'n' :: ("    source: ".toList ++ (url ++ "\\n    sourceOnDemand: yes".toList)))) := by
    simp [addText]
  rw [e, ht]
  simp [nameLine, sourceLine]

/-! ## Passes of the editor over the lines -/

theorem appendAfter_none (sel : Str → Bool) (b : List Str) (file : List Str)
    (h : ∀ l ∈ file, sel l = false) : appendAfter sel b file = file := by
  induction file with
  | nil => rfl
  | cons l ls ih =>
    have hl : sel l = false := h l (by simp)
    simp [appendAfter, hl, ih (fun x hx => h x (by simp [hx]))]

theorem appendAfter_append (sel : Str → Bool) (b : List Str) (pre rest : List Str)
    (h : ∀ l ∈ pre, sel l = false) :
    appendAfter sel b (pre ++ rest) = pre ++ appendAfter sel b rest := by
  induction pre with
  | nil => rfl
  | cons l ls ih =>
    have hl : sel l = false := h l (by simp)
    simp [appendAfter, hl, ih (fun x hx => h x (by simp [hx]))]

theorem selectedNumbers_none (sel : Str → Bool) (file : List Str) :
    ∀ k, (∀ l ∈ file, sel l = false) → selectedNumbers sel k file = [] := by
  induction file with
  | nil => intro k _; rfl
  | cons l ls ih =>
    intro k h
    have hl : sel l = false := h l (by simp)
    simp [selectedNumbers, hl, ih (k + 1) (fun x hx => h x (by simp [hx]))]

theorem selectedNumbers_append (sel : Str → Bool) (pre rest : List Str) :
    ∀ k, (∀ l ∈ pre, sel l = false) →
      selectedNumbers sel k (pre ++ rest) = selectedNumbers sel (k + pre.length) rest := by
  induction pre with
  | nil => intro k _; rfl
  | cons l ls ih =>
    intro k h
    have hl : sel l = false := h l (by simp)
    rw [List.cons_append, selectedNumbers, hl, if_neg (by simp),
      ih (k + 1) (fun x hx => h x (by simp [hx])), List.length_cons]
    congr 1
    omega

theorem dropLines_before (first last : Nat) (pre rest : List Str) :
    ∀ k, k + pre.length ≤ first →
      dropLines first last k (pre ++ rest) = pre ++ dropLines first last (k + pre.length) rest := by
  induction pre with
  | nil => intro k _; rfl
  | cons l ls ih =>
    intro k h
    simp only [List.length_cons] at h
    rw [List.cons_append, dropLines, if_neg (by omega), ih (k + 1) (by omega),
      List.length_cons, List.cons_append]
    have e : k + 1 + ls.length = k + (ls.length + 1) := by omega
    rw [e]

theorem dropLines_after (first last : Nat) (ls : List Str) :
    ∀ k, max first last < k → dropLines first last k ls = ls := by
  induction ls with
  | nil => intro k _; rfl
  | cons l ls ih =>
    intro k h
    simp only [dropLines]
    rw [if_neg (by omega), ih (k + 1) (by omega)]

theorem dropLines_block (first : Nat) (x1 x2 x3 : Str) (post : List Str) :
    dropLines first (first + 2) first (x1 :: x2 :: x3 :: post) = post := by
  have hmax : max first (first + 2) = first + 2 := by omega
  simp only [dropLines, hmax]
  rw [if_pos (by omega), if_pos (by omega), if_pos (by omega)]
  exact dropLines_after _ _ _ _ (by omega)

theorem dropLines_sublist (first last : Nat) (ls : List Str) :
    ∀ k, (dropLines first last k ls).Sublist ls := by
  induction ls with
  | nil => intro k; simp [dropLines]
  | cons l ls ih =>
    intro k
    simp only [dropLines]
    split
    · exact (ih (k + 1)).trans (List.sublist_cons_self _ _)
    · exact (ih (k + 1)).cons₂ _

/-! ## The handlers on the modelled scripts -/

theorem addrtspurl_fresh (re : Str → Str → Bool) (conf : Conf) (host name url : Str)
    (file : List Str) (hm : conf.NameIsExist name = false) (hn : isPlain name = true)
    (hu : isPlain url = true) (hx : execStarts (addScript name url) = true) :
    addrtspurl re conf host name url file
      = some (addOk conf host name, appendAfter (re anchor) (block3 name url) file) := by
  have hx' : execStarts ('/' :: anchor ++ "/a\\".toList ++ addText name url) = true := hx
  have hs : sedAppend re anchor (addText name url) file
      = some { out := [], err := false,
               file := appendAfter (re anchor) (block3 name url) file } := by
    unfold sedAppend
    rw [if_pos hx', sedText_addText name url hn hu]
    rfl
  simp [addrtspurl, hm, hs, addOk]

theorem addrtspurl_not_started (re : Str → Str → Bool) (conf : Conf) (host name url : Str)
    (file : List Str) (hm : conf.NameIsExist name = false)
    (hx : execStarts (addScript name url) = false) :
    addrtspurl re conf host name url file = some (addFailed, file) := by
  have hx' : execStarts ('/' :: anchor ++ "/a\\".toList ++ addText name url) = false := hx
  have hs : sedAppend re anchor (addText name url) file
      = some { out := [], err := true, file := file } := by
    unfold sedAppend
    rw [if_neg (by rw [hx']; simp)]
  simp [addrtspurl, hm, hs, addFailed]

theorem readAddress_body (name r : Str)
    (h : ∀ c ∈ name, c ≠ '/' ∧ c ≠ '\\' ∧ c ≠ '\n') :
    readAddress (name ++ '/' :: r) = some (name, r) := by
  induction name with
  | nil => simp [readAddress]
  | cons c cs ih =>
    obtain ⟨h1, h2, h3⟩ := h c (by simp)
    have ih := ih (fun d hd => h d (by simp [hd]))
    simp [readAddress, h1, h2, h3, ih]

theorem lineNumbers_single (re : Str → Str → Bool) (p : Str) (file : List Str) :
    ∀ k, lineNumbers re [p] k file = selectedNumbers (re p) k file := by
  induction file with
  | nil => intro k; rfl
  | cons l ls ih =>
    intro k
    by_cases h : re p l = true
    · simp [lineNumbers, selectedNumbers, h, ih]
    · simp [lineNumbers, selectedNumbers, h, ih]

theorem sedLineNumbers_body (re : Str → Str → Bool) (name : Str) (file : List Str)
    (hb : isAddressBody name = true) :
    sedLineNumbers re name file
      = some { out := printNumbers (selectedNumbers (re name) 1 file), err := false,
               file := file } := by
  simp only [isAddressBody, Bool.and_eq_true, Bool.not_eq_true', List.all_eq_true,
    bne_iff_ne, ne_eq] at hb
  obtain ⟨hne, hall⟩ := hb
  have hne' : name ≠ [] := by
    intro e
    subst e
    simp at hne
  have hr := readAddress_body name ['=']
    (fun c hc => ⟨(hall c hc).1.1, (hall c hc).1.2, (hall c hc).2⟩)
  have hp : parseNumberCmds (deleteScript name).length (deleteScript name) = some [name] := by
    have hl : (deleteScript name).length = (name.length + 2) + 1 := by
      simp [deleteScript]
    have hs : deleteScript name = '/' :: (name ++ '/' :: ['=']) := by
      simp [deleteScript]
    rw [hl, hs]
    simp only [parseNumberCmds, if_true, hr, hne', if_false]
  simp [sedLineNumbers, hp, lineNumbers_single]


theorem deletertspurl_of_no_number (re : Str → Str → Bool) (name : Str) (file : List Str)
    (hb : isAddressBody name = true) (h : selectedNumbers (re name) 1 file = []) :
    deletertspurl re name file = some (deleteOk, file) := by
  have ha : Atoi (Replace '\n' (printNumbers [])) = 0 := by decide
  simp [deletertspurl, sedLineNumbers_body re name file hb, h, ha, deleteOk]

theorem deletertspurl_of_one_number (re : Str → Str → Bool) (name : Str) (file : List Str)
    (n : Nat) (hb : isAddressBody name = true) (h : selectedNumbers (re name) 1 file = [n])
    (h0 : 0 < n) (hmax : (n : Int) + 2 ≤ maxInt64) :
    deletertspurl re name file = some (deleteOk, dropLines n (n + 2) 1 file) := by
  have ha : Atoi (Replace '\n' (printNumbers [n])) = n :=
    Atoi_printNumbers_single n (by omega)
  have hw : wrapInt64 ((n : Int) + 2) = (n : Int) + 2 := by
    unfold wrapInt64
    unfold maxInt64 at hmax
    omega
  have hpos : (0 : Int) < (n : Int) := by omega
  have ht : ((n : Int) + 2).toNat = n + 2 := by omega
  have hneg : ¬ ((n : Int) + 2 < 0) := by omega
  simp [deletertspurl, sedLineNumbers_body re name file hb, h, ha, hpos, hw, sedDelete, hneg,
    ht, deleteOk]

theorem deletertspurl_single_block (re : Str → Str → Bool) (name : Str) (pre post : List Str)
    (x1 x2 x3 : Str) (hb : isAddressBody name = true)
    (hpre : ∀ l ∈ pre, re name l = false) (h1 : re name x1 = true) (h2 : re name x2 = false)
    (h3 : re name x3 = false) (hpost : ∀ l ∈ post, re name l = false)
    (hlen : (pre.length : Int) + 3 ≤ maxInt64) :
    deletertspurl re name (pre ++ x1 :: x2 :: x3 :: post) = some (deleteOk, pre ++ post) := by
  have hsel : selectedNumbers (re name) 1 (pre ++ x1 :: x2 :: x3 :: post) = [pre.length + 1] := by
    rw [selectedNumbers_append _ _ _ _ hpre]
    simp only [selectedNumbers, h1, h2, h3, if_true]
    rw [if_neg (by simp), if_neg (by simp), selectedNumbers_none _ _ _ hpost, Nat.add_comm]
  rw [deletertspurl_of_one_number re name _ (pre.length + 1) hb hsel (by omega)
    (by push_cast; omega)]
  rw [dropLines_before _ _ _ _ _ (by omega)]
  have e : 1 + pre.length = pre.length + 1 := by omega
  rw [e, dropLines_block]

theorem blocks_append (es fs : List (Str × Str)) : blocks (es ++ fs) = blocks es ++ blocks fs := by
  induction es with
  | nil => rfl
  | cons e es ih => simp [blocks, ih]

theorem blocks_length (es : List (Str × Str)) : (blocks es).length = 3 * es.length := by
  induction es with
  | nil => rfl
  | cons e es ih => simp [blocks, block3, ih]; omega

theorem Itoa_eq_toString (i : Int) : Itoa i = (toString i).toList := by
  cases i with
  | ofNat n => rfl
  | negSucc n => rfl

theorem hostName_eq (host : Str) : hostName host = host.takeWhile (fun c => c != ':') := by
  unfold hostName
  induction host with
  | nil => rfl
  | cons c cs ih =>
    by_cases h : c = ':'
    · simp [Split, h]
    · cases hs : Split ':' cs with
      | nil => rw [hs] at ih; simp [Split, h, hs, ← ih]
      | cons f fs => rw [hs] at ih; simp [Split, h, hs, ← ih]

/-! ## Counting name lines -/

theorem filter_appendAfter (sel : Str → Bool) (b file : List Str)
    (hb : ∀ l ∈ b, sel l = false) : (appendAfter sel b file).filter sel = file.filter sel := by
  have hfb : b.filter sel = [] := by
    rw [List.filter_eq_nil_iff]
    intro l hl
    simp [hb l hl]
  induction file with
  | nil => rfl
  | cons l ls ih =>
    by_cases h : sel l = true
    · simp [appendAfter, h, List.filter_cons, List.filter_append, hfb, ih]
    · simp [appendAfter, h, List.filter_cons, ih]

theorem count_appendAfter (sel : Str → Bool) (b file : List Str) (x : Str) :
    (appendAfter sel b file).count x
      = file.count x + (file.filter sel).length * b.count x := by
  induction file with
  | nil => simp [appendAfter]
  | cons l ls ih =>
    by_cases h : sel l = true
    · simp only [appendAfter, h, if_true, List.count_cons, List.count_append, ih,
        List.filter_cons, List.length_cons]
      rw [Nat.succ_mul]
      omega
    · simp only [appendAfter, h, List.count_cons, ih, List.filter_cons]
      simp only [Bool.false_eq_true, if_false, List.count_cons]
      omega

theorem nameLine_getLast (n : Str) : (nameLine n).getLast? = some ':' := by
  unfold nameLine
  exact List.getLast?_concat _

theorem nameLine_inj (n m : Str) (h : nameLine n = nameLine m) : n = m := by
  unfold nameLine at h
  simpa using h

theorem sourceLine_ne_nameLine (url n : Str) (h : url.getLast? ≠ some ':') :
    sourceLine url ≠ nameLine n := by
  intro e
  have e2 := congrArg List.getLast? e
  rw [nameLine_getLast] at e2
  unfold sourceLine at e2
  cases url with
  | nil => revert e2; decide
  | cons c cs =>
    rw [List.getLast?_append] at e2
    cases hg : (c :: cs).getLast? with
    | none => simp at hg
    | some y =>
      rw [hg] at e2 h
      simp at e2
      exact h (by rw [e2])

theorem flagLine_ne_nameLine (n : Str) : flagLine ≠ nameLine n := by
  intro e
  have e2 := congrArg List.getLast? e
  rw [nameLine_getLast] at e2
  revert e2
  decide

theorem count_block3 (name url n : Str) (h : url.getLast? ≠ some ':') :
    (block3 name url).count (nameLine n) = if n = name then 1 else 0 := by
  have h2 : ¬ (sourceLine url = nameLine n) := sourceLine_ne_nameLine url n h
  have h3 : ¬ (flagLine = nameLine n) := flagLine_ne_nameLine n
  by_cases hn : n = name
  · subst hn
    simp [block3, List.count_cons, h2, h3]
  · have h1 : ¬ (nameLine name = nameLine n) := fun e => hn (nameLine_inj _ _ e).symm
    simp [block3, List.count_cons, h1, h2, h3, hn]

theorem sedDelete_sublist (a b : Int) (file : List Str) :
    (sedDelete a b file).file.Sublist file := by
  unfold sedDelete
  split
  · exact List.Sublist.refl _
  · exact dropLines_sublist _ _ _ _

theorem respond_sublist (r2 : Exec) (x y : Resp) (file : List Str)
    (h : r2.file.Sublist file) :
    ∃ r file', (if r2.err = true then some (x, r2.file) else some (y, r2.file))
      = some (r, file') ∧ file'.Sublist file := by
  cases r2.err
  · exact ⟨y, r2.file, by simp, h⟩
  · exact ⟨x, r2.file, by simp, h⟩

theorem deletertspurl_sublist (re : Str → Str → Bool) (name : Str) (file : List Str)
    (hb : isAddressBody name = true) :
    ∃ r file', deletertspurl re name file = some (r, file') ∧ file'.Sublist file := by
  have hr2 : ∀ col : Int, (if col > 0 then sedDelete col (wrapInt64 (col + 2)) file
      else { out := [], err := false, file := file }).file.Sublist file := by
    intro col
    split
    · exact sedDelete_sublist _ _ _
    · exact List.Sublist.refl _
  simp only [deletertspurl, sedLineNumbers_body re name file hb]
  exact respond_sublist _ _ _ _ (hr2 _)

theorem litSearch_of_isPrefixOf (pat l : Str) (h : pat.isPrefixOf l = true) :
    litSearch pat l = true := by
  cases l with
  | nil => cases pat with
    | nil => rfl
    | cons c cs => simp [List.isPrefixOf] at h
  | cons c cs => simp [litSearch, h]

theorem litSearch_cons (pat l : Str) (c : Char) (h : litSearch pat l = true) :
    litSearch pat (c :: l) = true := by
  simp [litSearch, h]

theorem litSearch_nameLine (name : Str) : litSearch name (nameLine name) = true := by
  have hp : name.isPrefixOf (name ++ ":".toList) = true := by
    rw [ List.isPrefixOf_iff_prefix]
    exact List.prefix_append _ _
  have := litSearch_cons _ _ ' ' (litSearch_cons _ _ ' ' (litSearch_of_isPrefixOf _ _ hp))
  simpa [nameLine] using this

theorem isLiteralPattern_body (name : Str) (hne : name ≠ [])
    (h : isLiteralPattern name = true) : isAddressBody name = true ∧ isPlain name = true := by
  simp only [isLiteralPattern, List.all_eq_true, Bool.and_eq_true, bne_iff_ne, ne_eq] at h
  have he : name.isEmpty = false := by cases name <;> simp_all
  constructor
  · simp only [isAddressBody, he, Bool.not_false, Bool.true_and, List.all_eq_true,
      Bool.and_eq_true, bne_iff_ne, ne_eq]
    intro c hc
    have := h c hc
    tauto
  · simp only [isPlain, List.all_eq_true, Bool.and_eq_true, bne_iff_ne, ne_eq]
    intro c hc
    have := h c hc
    tauto

theorem step_preserves (re : Str → Str → Bool) (mirror : List Str → Conf)
    (hfresh : ∀ file n, (mirror file).NameIsExist n = true ↔ nameLine n ∈ file)
    (file : List Str) (c : Call) (hc : callOK re c = true)
    (ha : (file.filter (re anchor)).length ≤ 1) (hu : ∀ n, file.count (nameLine n) ≤ 1) :
    ∃ file', step re mirror file c = some file'
      ∧ (file'.filter (re anchor)).length ≤ 1 ∧ ∀ n, file'.count (nameLine n) ≤ 1 := by
  cases c with
  | add host name url =>
    simp only [callOK, Bool.and_eq_true, Bool.not_eq_true', bne_iff_ne, ne_eq] at hc
    obtain ⟨⟨⟨⟨⟨hn, hurl⟩, hlast⟩, h1⟩, h2⟩, h3⟩ := hc
    by_cases hm : (mirror file).NameIsExist name = true
    · exact ⟨file, by simp [step, addrtspurl, hm], ha, hu⟩
    · have hm' : (mirror file).NameIsExist name = false := by simpa using hm
      have hnot : nameLine name ∉ file := fun hmem => hm ((hfresh file name).2 hmem)
      by_cases hx : execStarts (addScript name url) = true
      swap
      · exact ⟨file, by
          simp [step, addrtspurl_not_started re _ host name url file hm' (by simpa using hx)],
          ha, hu⟩
      refine ⟨appendAfter (re anchor) (block3 name url) file, ?_, ?_, ?_⟩
      · simp [step, addrtspurl_fresh re _ host name url file hm' hn hurl hx]
      · rw [filter_appendAfter]
        · exact ha
        · intro l hl
          simp only [block3, List.mem_cons, List.mem_singleton, List.not_mem_nil, or_false] at hl
          rcases hl with rfl | rfl | rfl
          · exact h1
          · exact h2
          · exact h3
      · intro n
        rw [count_appendAfter, count_block3 name url n hlast]
        by_cases e : n = name
        · subst e
          rw [List.count_eq_zero.2 hnot]
          simpa using ha
        · simpa [e] using hu n
  | delete name =>
    obtain ⟨r, file', hd, hs⟩ := deletertspurl_sublist re name file (by simpa [callOK] using hc)
    refine ⟨file', by simp [step, hd], ?_, ?_⟩
    · exact le_trans (hs.filter _).length_le ha
    · intro n
      exact le_trans (hs.count_le _) (hu n)

/-! ## The claims -/

/-- C1: when the mirror reports the name, `addrtspurl` answers with the
duplicate-name code 100002, which differs from the success code 100000 and the
failure code 100001, runs no editor and leaves the artifact as it was. -/
theorem addrtspurl_duplicate_name (re : Str → Str → Bool) (conf : Conf) (host name url : Str)
    (file : List Str) (h : conf.NameIsExist name = true) :
    addrtspurl re conf host name url file
        = some ({ Code := 100002, Msg := "rtsp url already exist".toList,
                  Data := newURL conf host name }, file)
      ∧ (100002 : Nat) ≠ 100000 ∧ (100002 : Nat) ≠ 100001 := by
  simp [addrtspurl, h]

theorem addrtspurl_duplicate_name_witness :
    ({ RtspPort := 8554, Paths := [("cam1".toList, ⟨"rtsp://10.0.0.1/live".toList⟩)],
       NameIsExist := fun n => n == "cam1".toList } : Conf).NameIsExist "cam1".toList = true
    ∧ (addrtspurl litSearch
        { RtspPort := 8554, Paths := [("cam1".toList, ⟨"rtsp://10.0.0.1/live".toList⟩)],
          NameIsExist := fun n => n == "cam1".toList }
        "example.org:9999".toList "cam1".toList "rtsp://10.0.0.2/live".toList
        ["paths:".toList, "  cam1:".toList, "    source: rtsp://10.0.0.1/live".toList,
          "    sourceOnDemand: yes".toList]).map Prod.snd
      = some ["paths:".toList, "  cam1:".toList, "    source: rtsp://10.0.0.1/live".toList,
          "    sourceOnDemand: yes".toList] :=
  ⟨by decide, by
    rw [(addrtspurl_duplicate_name litSearch _ "example.org:9999".toList "cam1".toList
      "rtsp://10.0.0.2/live".toList _ (by decide)).1]
    rfl⟩

/-- C2, as stated, fails: with two lines selected by the anchor, `addrtspurl`
writes the block after both of them, while insertion after the first selected
line only would write it once. -/
theorem addrtspurl_two_anchor_lines :
    addrtspurl litSearch emptyMirror "example.org:9999".toList "cam1".toList
        "rtsp://10.0.0.1/live".toList ["paths:".toList, "# end of paths:".toList]
      = some (addOk emptyMirror "example.org:9999".toList "cam1".toList,
          ["paths:".toList,
           "  cam1:".toList, "    source: rtsp://10.0.0.1/live".toList,
           "    sourceOnDemand: yes".toList,
           "# end of paths:".toList,
           "  cam1:".toList, "    source: rtsp://10.0.0.1/live".toList,
           "    sourceOnDemand: yes".toList])
    ∧ specInsertAfterFirst (litSearch anchor)
        (block3 "cam1".toList "rtsp://10.0.0.1/live".toList)
        ["paths:".toList, "# end of paths:".toList]
      = ["paths:".toList,
         "  cam1:".toList, "    source: rtsp://10.0.0.1/live".toList,
         "    sourceOnDemand: yes".toList,
         "# end of paths:".toList] := by
  constructor <;> decide

/-- C2, amended: for a name absent from the mirror, name and source free of
line feeds and backslashes and such that the editor can be started with the
script (no NUL byte, below the size limit of one argument), `addrtspurl`
reports success and writes the block after every line the anchor selects and
nowhere else: the lines up to the first selected line stay, the block follows
that line, and the lines after it are treated in the same way; when no later
line is selected they stay as they are. -/
theorem addrtspurl_inserts_after_each_anchor (re : Str → Str → Bool) (conf : Conf)
    (host name url : Str) (pre post : List Str) (a : Str)
    (hm : conf.NameIsExist name = false) (hn : isPlain name = true) (hu : isPlain url = true)
    (hx : execStarts (addScript name url) = true)
    (hpre : ∀ l ∈ pre, re anchor l = false) (ha : re anchor a = true) :
    (∃ post', addrtspurl re conf host name url post = some (addOk conf host name, post')
      ∧ addrtspurl re conf host name url (pre ++ a :: post)
        = some (addOk conf host name,
            pre ++ a :: nameLine name :: sourceLine url :: flagLine :: post'))
    ∧ ((∀ l ∈ post, re anchor l = false) →
      addrtspurl re conf host name url (pre ++ a :: post)
        = some (addOk conf host name,
            pre ++ a :: nameLine name :: sourceLine url :: flagLine :: post)) := by
  have hfile : appendAfter (re anchor) (block3 name url) (pre ++ a :: post)
      = pre ++ a :: nameLine name :: sourceLine url :: flagLine ::
          appendAfter (re anchor) (block3 name url) post := by
    rw [appendAfter_append _ _ _ _ hpre]
    simp [appendAfter, ha, block3]
  refine ⟨⟨appendAfter (re anchor) (block3 name url) post, ?_, ?_⟩, ?_⟩
  · exact addrtspurl_fresh re conf host name url post hm hn hu hx
  · rw [addrtspurl_fresh re conf host name url _ hm hn hu hx, hfile]
  · intro hpost
    rw [addrtspurl_fresh re conf host name url _ hm hn hu hx, hfile,
      appendAfter_none _ _ _ hpost]

theorem addrtspurl_inserts_after_each_anchor_witness :
    emptyMirror.NameIsExist "cam1".toList = false
    ∧ isPlain "cam1".toList = true ∧ isPlain "rtsp://10.0.0.1/live".toList = true
    ∧ execStarts (addScript "cam1".toList "rtsp://10.0.0.1/live".toList) = true
    ∧ (∀ l ∈ ["# configuration".toList], litSearch anchor l = false)
    ∧ litSearch anchor "paths:".toList = true
    ∧ (∀ l ∈ ["  all:".toList], litSearch anchor l = false)
    ∧ addrtspurl litSearch emptyMirror "example.org:9999".toList "cam1".toList
        "rtsp://10.0.0.1/live".toList
        (["# configuration".toList] ++ "paths:".toList :: ["  all:".toList])
      = some (addOk emptyMirror "example.org:9999".toList "cam1".toList,
          ["# configuration".toList] ++ "paths:".toList :: nameLine "cam1".toList ::
            sourceLine "rtsp://10.0.0.1/live".toList :: flagLine :: ["  all:".toList]) :=
  ⟨by decide, by decide, by decide, by decide, by decide, by decide, by decide,
    (addrtspurl_inserts_after_each_anchor litSearch emptyMirror "example.org:9999".toList
      "cam1".toList "rtsp://10.0.0.1/live".toList ["# configuration".toList] ["  all:".toList]
      "paths:".toList (by decide) (by decide) (by decide) (by decide) (by decide)
      (by decide)).2 (by decide)⟩

/-- C3, as stated, fails: on an artifact without a line selected by the anchor
`addrtspurl` answers with the success code 100000. -/
theorem addrtspurl_no_anchor_reports_success :
    addrtspurl litSearch emptyMirror "example.org:9999".toList "cam1".toList
        "rtsp://10.0.0.1/live".toList ["rtspPort: 8554".toList, "protocols: tcp".toList]
      = some ({ Code := 100000, Msg := "添加成功".toList,
                Data := newURL emptyMirror "example.org:9999".toList "cam1".toList },
          ["rtspPort: 8554".toList, "protocols: tcp".toList]) := by
  decide

/-- C3, amended: on an artifact in which the anchor selects no line, for a name
absent from the mirror, name and source free of line feeds and backslashes,
`addrtspurl` leaves the artifact unchanged; it reports success (code 100000)
whenever the editor can be started with the script, and failure (code 100001)
only when it cannot (a NUL byte in the script, or a script over the size limit
of one argument).  No outcome for a missing anchor exists. -/
theorem addrtspurl_no_anchor (re : Str → Str → Bool) (conf : Conf) (host name url : Str)
    (file : List Str) (hm : conf.NameIsExist name = false) (hn : isPlain name = true)
    (hu : isPlain url = true) (h : ∀ l ∈ file, re anchor l = false) :
    addrtspurl re conf host name url file
      = some ((if execStarts (addScript name url) = true then
            { Code := 100000, Msg := "添加成功".toList, Data := newURL conf host name }
          else { Code := 100001, Msg := "添加失败".toList, Data := Data.str [] }),
          file) := by
  by_cases hx : execStarts (addScript name url) = true
  · rw [addrtspurl_fresh re conf host name url file hm hn hu hx, appendAfter_none _ _ _ h,
      if_pos hx]
    rfl
  · rw [addrtspurl_not_started re conf host name url file hm (by simpa using hx), if_neg hx]
    rfl

theorem addrtspurl_no_anchor_witness :
    emptyMirror.NameIsExist "cam1".toList = false
    ∧ isPlain "cam1".toList = true ∧ isPlain "rtsp://10.0.0.1/live".toList = true
    ∧ (∀ l ∈ ["rtspPort: 8554".toList], litSearch anchor l = false)
    ∧ addrtspurl litSearch emptyMirror "example.org".toList "cam1".toList
        "rtsp://10.0.0.1/live".toList ["rtspPort: 8554".toList]
      = some ((if execStarts (addScript "cam1".toList "rtsp://10.0.0.1/live".toList) = true
            then { Code := 100000, Msg := "添加成功".toList,
                   Data := newURL emptyMirror "example.org".toList "cam1".toList }
            else { Code := 100001, Msg := "添加失败".toList, Data := Data.str [] }),
          ["rtspPort: 8554".toList]) :=
  ⟨by decide, by decide, by decide, by decide,
    addrtspurl_no_anchor litSearch emptyMirror "example.org".toList "cam1".toList
      "rtsp://10.0.0.1/live".toList ["rtspPort: 8554".toList]
      (by decide) (by decide) (by decide) (by decide)⟩

/-- C4, as stated, fails: the name `paths:/=;/zzz` occurs in no line of the
artifact, but it closes the address early: the script becomes the two commands
`/paths:/=` and `/zzz/=`, the editor prints the number 1 of the anchor line,
and the handler removes the lines 1 to 3. -/
theorem deletertspurl_name_closing_address :
    (∀ l ∈ ["paths:".toList, "  cam1:".toList, "    source: rtsp://10.0.0.1/live".toList,
        "    sourceOnDemand: yes".toList], litSearch "paths:/=;/zzz".toList l = false)
    ∧ deleteScript "paths:/=;/zzz".toList = "/paths:/=;/zzz/=".toList
    ∧ deletertspurl litSearch "paths:/=;/zzz".toList
        ["paths:".toList, "  cam1:".toList, "    source: rtsp://10.0.0.1/live".toList,
          "    sourceOnDemand: yes".toList]
      = some (deleteOk, ["    sourceOnDemand: yes".toList]) := by
  refine ⟨?_, ?_, ?_⟩ <;> decide

/-- C4, amended: for a name that is an address body (not empty, without `/`,
backslash and line feed) and selects no line of the artifact, `deletertspurl`
reports success (code 100000) and leaves the artifact unchanged: the editor
prints no line number, the number parsed is 0 and no deletion is run. -/
theorem deletertspurl_no_match (re : Str → Str → Bool) (name : Str) (file : List Str)
    (hb : isAddressBody name = true) (h : ∀ l ∈ file, re name l = false) :
    deletertspurl re name file
      = some ({ Code := 100000, Msg := "删除成功".toList, Data := Data.str [] }, file) :=
  deletertspurl_of_no_number re name file hb (selectedNumbers_none _ _ 1 h)

theorem deletertspurl_no_match_witness :
    isAddressBody "cam9".toList = true
    ∧ (∀ l ∈ ["paths:".toList, "  cam1:".toList, "    source: rtsp://10.0.0.1/live".toList,
          "    sourceOnDemand: yes".toList], litSearch "cam9".toList l = false)
    ∧ deletertspurl litSearch "cam9".toList
        ["paths:".toList, "  cam1:".toList, "    source: rtsp://10.0.0.1/live".toList,
          "    sourceOnDemand: yes".toList]
      = some ({ Code := 100000, Msg := "删除成功".toList, Data := Data.str [] },
          ["paths:".toList, "  cam1:".toList, "    source: rtsp://10.0.0.1/live".toList,
            "    sourceOnDemand: yes".toList]) :=
  ⟨by decide, by decide,
    deletertspurl_no_match litSearch "cam9".toList _ (by decide) (by decide)⟩

/-- C5, the code at a failing input: the name selects the lines 2 and 3, the
editor prints both numbers, the handler reads them as the one number 23 and
asks for the lines 23 to 25 to be removed, so nothing is removed and success is
reported; removing the three lines from the first selected line on would leave
the anchor line alone. -/
theorem deletertspurl_two_matches :
    deletertspurl litSearch "cam1".toList
        ["paths:".toList, "  cam1:".toList, "    source: rtsp://10.0.0.1/cam1".toList,
          "    sourceOnDemand: yes".toList]
      = some (deleteOk,
          ["paths:".toList, "  cam1:".toList, "    source: rtsp://10.0.0.1/cam1".toList,
            "    sourceOnDemand: yes".toList])
    ∧ printNumbers (selectedNumbers (litSearch "cam1".toList) 1
        ["paths:".toList, "  cam1:".toList, "    source: rtsp://10.0.0.1/cam1".toList,
          "    sourceOnDemand: yes".toList]) = "2\n3\n".toList
    ∧ Atoi (Replace '\n' "2\n3\n".toList) = 23
    ∧ specDeleteFirstMatch (litSearch "cam1".toList)
        ["paths:".toList, "  cam1:".toList, "    source: rtsp://10.0.0.1/cam1".toList,
          "    sourceOnDemand: yes".toList]
      = ["paths:".toList] := by
  refine ⟨?_, ?_, ?_, ?_⟩ <;> decide

/-- C6, as stated, fails: two blocks with the distinct names `cam1` and
`cam10`; the name `cam1` selects the name lines of both blocks (lines 2 and 5),
the handler reads the number 25, nothing is removed, and both blocks are still
there. -/
theorem deletertspurl_name_inside_other_name :
    deletertspurl litSearch "cam1".toList
        ("paths:".toList :: blocks [("cam1".toList, "rtsp://10.0.0.1/a".toList),
          ("cam10".toList, "rtsp://10.0.0.1/b".toList)])
      = some (deleteOk,
          "paths:".toList :: blocks [("cam1".toList, "rtsp://10.0.0.1/a".toList),
            ("cam10".toList, "rtsp://10.0.0.1/b".toList)])
    ∧ "paths:".toList :: blocks [("cam1".toList, "rtsp://10.0.0.1/a".toList),
          ("cam10".toList, "rtsp://10.0.0.1/b".toList)]
      ≠ "paths:".toList :: blocks [("cam10".toList, "rtsp://10.0.0.1/b".toList)] := by
  constructor <;> decide

/-- C6, amended: on an artifact made of the anchor line followed by blocks of
three lines, when the deleted name is an address body that selects the name
line of its own block and no other line of the artifact (and the artifact is
short enough for its line numbers to be Go integers), `deletertspurl` reports
success and the artifact is the anchor line followed by the other blocks,
unchanged and in the same order. -/
theorem deletertspurl_removes_one_block (re : Str → Str → Bool) (a name url : Str)
    (pre post : List (Str × Str)) (hb : isAddressBody name = true)
    (ha : re name a = false) (hpre : ∀ l ∈ blocks pre, re name l = false)
    (hpost : ∀ l ∈ blocks post, re name l = false)
    (h1 : re name (nameLine name) = true) (h2 : re name (sourceLine url) = false)
    (h3 : re name flagLine = false) (hlen : 3 * (pre.length : Int) + 4 ≤ maxInt64) :
    deletertspurl re name (a :: blocks (pre ++ (name, url) :: post))
      = some (deleteOk, a :: blocks (pre ++ post)) := by
  have e : a :: blocks (pre ++ (name, url) :: post)
      = (a :: blocks pre) ++ nameLine name :: sourceLine url :: flagLine :: blocks post := by
    simp [blocks_append, blocks, block3]
  have hpre' : ∀ l ∈ a :: blocks pre, re name l = false := by
    intro l hl
    rcases List.mem_cons.1 hl with rfl | hl
    · exact ha
    · exact hpre l hl
  rw [e, deletertspurl_single_block re name _ _ _ _ _ hb hpre' h1 h2 h3 hpost
    (by simp only [List.length_cons, blocks_length]; push_cast; omega)]
  simp [blocks_append]

theorem deletertspurl_removes_one_block_witness :
    isAddressBody "cam2".toList = true
    ∧ litSearch "cam2".toList "paths:".toList = false
    ∧ (∀ l ∈ blocks [("cam1".toList, "rtsp://10.0.0.1/a".toList)],
        litSearch "cam2".toList l = false)
    ∧ (∀ l ∈ blocks [("cam3".toList, "rtsp://10.0.0.1/c".toList)],
        litSearch "cam2".toList l = false)
    ∧ litSearch "cam2".toList (nameLine "cam2".toList) = true
    ∧ litSearch "cam2".toList (sourceLine "rtsp://10.0.0.1/b".toList) = false
    ∧ litSearch "cam2".toList flagLine = false
    ∧ deletertspurl litSearch "cam2".toList
        ("paths:".toList :: blocks ([("cam1".toList, "rtsp://10.0.0.1/a".toList)] ++
          ("cam2".toList, "rtsp://10.0.0.1/b".toList) ::
            [("cam3".toList, "rtsp://10.0.0.1/c".toList)]))
      = some (deleteOk,
          "paths:".toList :: blocks ([("cam1".toList, "rtsp://10.0.0.1/a".toList)] ++
            [("cam3".toList, "rtsp://10.0.0.1/c".toList)])) :=
  ⟨by decide, by decide, by decide, by decide, by decide, by decide, by decide,
    deletertspurl_removes_one_block litSearch "paths:".toList "cam2".toList
      "rtsp://10.0.0.1/b".toList [("cam1".toList, "rtsp://10.0.0.1/a".toList)]
      [("cam3".toList, "rtsp://10.0.0.1/c".toList)]
      (by decide) (by decide) (by decide) (by decide) (by decide) (by decide) (by decide)
      (by decide)⟩

/-- C7, as stated, fails: a source that holds the two characters backslash and
`n` makes the editor break the source line, and the block written has four
lines. -/
theorem addrtspurl_source_with_escape :
    sedText (addText "cam1".toList "rtsp://10.0.0.1/a\\nb".toList)
      = some ["  cam1:".toList, "    source: rtsp://10.0.0.1/a".toList, "b".toList,
          "    sourceOnDemand: yes".toList]
    ∧ addrtspurl litSearch emptyMirror "example.org:9999".toList "cam1".toList
        "rtsp://10.0.0.1/a\\nb".toList ["paths:".toList]
      = some (addOk emptyMirror "example.org:9999".toList "cam1".toList,
          ["paths:".toList, "  cam1:".toList, "    source: rtsp://10.0.0.1/a".toList,
            "b".toList, "    sourceOnDemand: yes".toList]) := by
  constructor <;> decide

/-- C7, amended: for a name and a source free of line feeds and backslashes,
the text of the script stands for exactly the three lines `  <name>:`,
`    source: <source>` and `    sourceOnDemand: yes`, and, when the editor can
be started with the script (no NUL byte, below the size limit of one
argument), this block of three lines is what `addrtspurl` writes after a line
the anchor selects. -/
theorem addrtspurl_block_three_lines (re : Str → Str → Bool) (conf : Conf)
    (host name url a : Str) (hm : conf.NameIsExist name = false) (hn : isPlain name = true)
    (hu : isPlain url = true) (hx : execStarts (addScript name url) = true)
    (ha : re anchor a = true) :
    sedText (addText name url)
      = some ["  ".toList ++ name ++ ":".toList, "    source: ".toList ++ url,
          "    sourceOnDemand: yes".toList]
    ∧ addrtspurl re conf host name url [a]
      = some (addOk conf host name,
          [a, "  ".toList ++ name ++ ":".toList, "    source: ".toList ++ url,
            "    sourceOnDemand: yes".toList]) := by
  refine ⟨sedText_addText name url hn hu, ?_⟩
  rw [addrtspurl_fresh re conf host name url _ hm hn hu hx]
  simp [appendAfter, ha, block3, nameLine, sourceLine, flagLine]

theorem addrtspurl_block_three_lines_witness :
    emptyMirror.NameIsExist "cam1".toList = false
    ∧ isPlain "cam1".toList = true ∧ isPlain "rtsp://10.0.0.1/live".toList = true
    ∧ execStarts (addScript "cam1".toList "rtsp://10.0.0.1/live".toList) = true
    ∧ litSearch anchor "paths:".toList = true
    ∧ sedText (addText "cam1".toList "rtsp://10.0.0.1/live".toList)
      = some ["  ".toList ++ "cam1".toList ++ ":".toList,
          "    source: ".toList ++ "rtsp://10.0.0.1/live".toList,
          "    sourceOnDemand: yes".toList]
    ∧ addrtspurl litSearch emptyMirror "example.org".toList "cam1".toList
        "rtsp://10.0.0.1/live".toList ["paths:".toList]
      = some (addOk emptyMirror "example.org".toList "cam1".toList,
          ["paths:".toList, "  ".toList ++ "cam1".toList ++ ":".toList,
            "    source: ".toList ++ "rtsp://10.0.0.1/live".toList,
            "    sourceOnDemand: yes".toList]) :=
  ⟨by decide, by decide, by decide, by decide, by decide,
    addrtspurl_block_three_lines litSearch emptyMirror "example.org".toList "cam1".toList
      "rtsp://10.0.0.1/live".toList "paths:".toList
      (by decide) (by decide) (by decide) (by decide) (by decide)⟩

/-- C8: `getrtspurls` always answers with the success code 100000 and one
entry per item of the mirror, in the order of the mirror, with the name and the
source of the item and the locator `rtsp://h:port/name`, `h` being the request
host up to its first colon and `port` the configured port in decimal, as
`toString` prints an integer; `addrtspurl` computes the same locator for that
name.  For the port 8554 and the request host
`example.org:9999` the locator of `cam1` is `rtsp://example.org:8554/cam1`. -/
theorem getrtspurls_lists_mirror (conf : Conf) (host : Str) :
    (getrtspurls conf host).Code = 100000
    ∧ (getrtspurls conf host).Data
      = Data.urls (conf.Paths.map (fun e =>
          { Name := e.1, SourceURL := e.2.Source,
            TargetURL := "rtsp://".toList ++ host.takeWhile (fun c => c != ':') ++ ":".toList
              ++ (toString conf.RtspPort).toList ++ "/".toList ++ e.1 }))
    ∧ (∀ name, newURL conf host name
      = Data.newURL name ("rtsp://".toList ++ host.takeWhile (fun c => c != ':') ++ ":".toList
          ++ (toString conf.RtspPort).toList ++ "/".toList ++ name))
    ∧ getrtspurls
        { RtspPort := 8554,
          Paths := [("cam1".toList, ⟨"rtsp://10.0.0.1/live".toList⟩),
            ("cam2".toList, ⟨"rtsp://10.0.0.2/live".toList⟩)],
          NameIsExist := fun n => n == "cam1".toList || n == "cam2".toList }
        "example.org:9999".toList
      = { Code := 100000, Msg := "获取摄像头列表成功".toList,
          Data := Data.urls
            [{ Name := "cam1".toList, TargetURL := "rtsp://example.org:8554/cam1".toList,
               SourceURL := "rtsp://10.0.0.1/live".toList },
             { Name := "cam2".toList, TargetURL := "rtsp://example.org:8554/cam2".toList,
               SourceURL := "rtsp://10.0.0.2/live".toList }] }
    ∧ newURL emptyMirror "example.org:9999".toList "cam1".toList
      = Data.newURL "cam1".toList "rtsp://example.org:8554/cam1".toList := by
  refine ⟨rfl, ?_, ?_, by decide, by decide⟩
  · simp [getrtspurls, rtspURL, hostName_eq, Itoa_eq_toString]
  · intro name
    simp [newURL, rtspURL, hostName_eq, Itoa_eq_toString]

/-- C9, as stated, fails: the artifact holds the anchor line only and the
mirror has no entry; with a mirror that is not reloaded, two `addrtspurl` calls
with the same name both pass the existence check, and the name heads two blocks
afterwards. -/
theorem run_stale_mirror_duplicates :
    emptyMirror.Paths = []
    ∧ run litSearch (fun _ => emptyMirror)
        [Call.add "example.org:9999".toList "cam1".toList "rtsp://10.0.0.1/live".toList,
         Call.add "example.org:9999".toList "cam1".toList "rtsp://10.0.0.1/live".toList]
        ["paths:".toList]
      = some ["paths:".toList,
          "  cam1:".toList, "    source: rtsp://10.0.0.1/live".toList,
          "    sourceOnDemand: yes".toList,
          "  cam1:".toList, "    source: rtsp://10.0.0.1/live".toList,
          "    sourceOnDemand: yes".toList]
    ∧ List.count (nameLine "cam1".toList)
        ["paths:".toList,
          "  cam1:".toList, "    source: rtsp://10.0.0.1/live".toList,
          "    sourceOnDemand: yes".toList,
          "  cam1:".toList, "    source: rtsp://10.0.0.1/live".toList,
          "    sourceOnDemand: yes".toList] = 2 := by
  refine ⟨rfl, ?_, ?_⟩ <;> decide

/-- C9, amended: start from an artifact in which every name heads at most one
block and the anchor selects at most one line; run any finite sequence of
`addrtspurl` and `deletertspurl` calls in which the mirror is reloaded before
each call (it reports a name exactly when the name line is in the artifact),
every added name and source is free of line feeds and backslashes, the source
does not end in a colon, no line of an added block is selected by the anchor,
and every deleted name is an address body.  Then the sequence runs to its end
and every name still heads at most one block. -/
theorem run_keeps_names_unique (re : Str → Str → Bool) (mirror : List Str → Conf)
    (calls : List Call) (file : List Str)
    (hfresh : ∀ file n, (mirror file).NameIsExist n = true ↔ nameLine n ∈ file)
    (hcalls : ∀ c ∈ calls, callOK re c = true)
    (ha : (file.filter (re anchor)).length ≤ 1) (hu : ∀ n, file.count (nameLine n) ≤ 1) :
    ∃ file', run re mirror calls file = some file' ∧ ∀ n, file'.count (nameLine n) ≤ 1 := by
  induction calls generalizing file with
  | nil => exact ⟨file, rfl, hu⟩
  | cons c cs ih =>
    obtain ⟨f1, hs, ha1, hu1⟩ :=
      step_preserves re mirror hfresh file c (hcalls c (by simp)) ha hu
    obtain ⟨f2, hr, hu2⟩ := ih f1 (fun d hd => hcalls d (by simp [hd])) ha1 hu1
    exact ⟨f2, by simp [run, hs, hr], hu2⟩

theorem run_keeps_names_unique_witness :
    (∀ file n, (reloadedMirror file).NameIsExist n = true ↔ nameLine n ∈ file)
    ∧ (∀ c ∈ [Call.add "example.org:9999".toList "cam1".toList "rtsp://10.0.0.1/live".toList,
          Call.add "example.org:9999".toList "cam1".toList "rtsp://10.0.0.2/live".toList,
          Call.delete "cam1".toList], callOK litSearch c = true)
    ∧ (["paths:".toList].filter (litSearch anchor)).length ≤ 1
    ∧ (∀ n, ["paths:".toList].count (nameLine n) ≤ 1)
    ∧ ∃ file', run litSearch reloadedMirror
          [Call.add "example.org:9999".toList "cam1".toList "rtsp://10.0.0.1/live".toList,
           Call.add "example.org:9999".toList "cam1".toList "rtsp://10.0.0.2/live".toList,
           Call.delete "cam1".toList] ["paths:".toList] = some file'
        ∧ ∀ n, file'.count (nameLine n) ≤ 1 :=
  have h1 : ∀ file n, (reloadedMirror file).NameIsExist n = true ↔ nameLine n ∈ file := by
    intro file n
    simp [reloadedMirror]
  have h4 : ∀ n, ["paths:".toList].count (nameLine n) ≤ 1 := by
    intro n
    rw [List.count_cons, List.count_nil]
    split <;> omega
  ⟨h1, by decide, by decide, h4,
    run_keeps_names_unique litSearch reloadedMirror _ _ h1 (by decide) (by decide) h4⟩

/-- C10, the code at a failing input: the name made of a blank and the letter
`s` is not empty, has no metacharacter, and occurs neither in the artifact, nor
in `source: ` followed by the source, nor in `sourceOnDemand: yes`.
`addrtspurl` succeeds and writes the block; the name selects the three
indented lines of the block (lines 2, 3 and 4), the editor prints the three
numbers, `deletertspurl` reads them as the one number 234, asks for the lines
234 to 236 to be removed and reports success, so the block stays.  Removing
the three lines from the first selected line on would give back the original
artifact. -/
theorem add_then_delete_leading_blank :
    litSearch " s".toList "paths:".toList = false
    ∧ litSearch " s".toList ("source: ".toList ++ "rtsp://10.0.0.1/live".toList) = false
    ∧ litSearch " s".toList "sourceOnDemand: yes".toList = false
    ∧ isLiteralPattern " s".toList = true
    ∧ addrtspurl litSearch emptyMirror "example.org:9999".toList " s".toList
        "rtsp://10.0.0.1/live".toList ["paths:".toList]
      = some (addOk emptyMirror "example.org:9999".toList " s".toList,
          ["paths:".toList, "   s:".toList, "    source: rtsp://10.0.0.1/live".toList,
            "    sourceOnDemand: yes".toList])
    ∧ printNumbers (selectedNumbers (litSearch " s".toList) 1
        ["paths:".toList, "   s:".toList, "    source: rtsp://10.0.0.1/live".toList,
          "    sourceOnDemand: yes".toList]) = "2\n3\n4\n".toList
    ∧ Atoi (Replace '\n' "2\n3\n4\n".toList) = 234
    ∧ deletertspurl litSearch " s".toList
        ["paths:".toList, "   s:".toList, "    source: rtsp://10.0.0.1/live".toList,
          "    sourceOnDemand: yes".toList]
      = some (deleteOk,
          ["paths:".toList, "   s:".toList, "    source: rtsp://10.0.0.1/live".toList,
            "    sourceOnDemand: yes".toList])
    ∧ specDeleteFirstMatch (litSearch " s".toList)
        ["paths:".toList, "   s:".toList, "    source: rtsp://10.0.0.1/live".toList,
          "    sourceOnDemand: yes".toList]
      = ["paths:".toList] := by
  refine ⟨?_, ?_, ?_, ?_, ?_, ?_, ?_, ?_, ?_⟩ <;> decide

/-- Round trip when one line only is selected: on an artifact with exactly one
line holding the anchor, for a name absent from the mirror, not empty and
without metacharacter, and a source without line feed and backslash, such that
the editor can be started with the script and the name occurs in no line of
the artifact and in neither the source line nor the flag line as they are
written, `addrtspurl` followed by `deletertspurl` gives back the original
lines. -/
theorem add_then_delete_identity (conf : Conf) (host name url a : Str) (pre post : List Str)
    (hm : conf.NameIsExist name = false) (hne : name ≠ [])
    (hlit : isLiteralPattern name = true) (hu : isPlain url = true)
    (hx : execStarts (addScript name url) = true)
    (hpre : ∀ l ∈ pre, litSearch anchor l = false) (ha : litSearch anchor a = true)
    (hpost : ∀ l ∈ post, litSearch anchor l = false)
    (hfile : ∀ l ∈ pre ++ a :: post, litSearch name l = false)
    (hsrc : litSearch name (sourceLine url) = false)
    (hflag : litSearch name flagLine = false)
    (hlen : (pre.length : Int) + 4 ≤ maxInt64) :
    ∃ file', addrtspurl litSearch conf host name url (pre ++ a :: post)
        = some (addOk conf host name, file')
      ∧ deletertspurl litSearch name file' = some (deleteOk, pre ++ a :: post) := by
  obtain ⟨hb, hn⟩ := isLiteralPattern_body name hne hlit
  refine ⟨(pre ++ [a]) ++ nameLine name :: sourceLine url :: flagLine :: post, ?_, ?_⟩
  · rw [addrtspurl_fresh litSearch conf host name url _ hm hn hu hx,
      appendAfter_append _ _ _ _ hpre]
    simp [appendAfter, ha, block3, appendAfter_none _ _ _ hpost]
  · rw [deletertspurl_single_block litSearch name (pre ++ [a]) post _ _ _ hb
      (fun l hl => hfile l (by
        rcases List.mem_append.1 hl with h | h
        · exact List.mem_append.2 (Or.inl h)
        · exact List.mem_append.2 (Or.inr (by simp at h; simp [h]))))
      (litSearch_nameLine name) hsrc hflag
      (fun l hl => hfile l (List.mem_append.2 (Or.inr (List.mem_cons_of_mem _ hl))))
      (by simp only [List.length_append, List.length_singleton]; push_cast; omega)]
    simp

theorem add_then_delete_identity_witness :
    emptyMirror.NameIsExist "cam1".toList = false ∧ "cam1".toList ≠ []
    ∧ isLiteralPattern "cam1".toList = true ∧ isPlain "rtsp://10.0.0.1/live".toList = true
    ∧ execStarts (addScript "cam1".toList "rtsp://10.0.0.1/live".toList) = true
    ∧ (∀ l ∈ ["rtspPort: 8554".toList], litSearch anchor l = false)
    ∧ litSearch anchor "paths:".toList = true
    ∧ (∀ l ∈ ["  all:".toList], litSearch anchor l = false)
    ∧ (∀ l ∈ ["rtspPort: 8554".toList] ++ "paths:".toList :: ["  all:".toList],
        litSearch "cam1".toList l = false)
    ∧ litSearch "cam1".toList (sourceLine "rtsp://10.0.0.1/live".toList) = false
    ∧ litSearch "cam1".toList flagLine = false
    ∧ ∃ file', addrtspurl litSearch emptyMirror "example.org:9999".toList "cam1".toList
          "rtsp://10.0.0.1/live".toList
          (["rtspPort: 8554".toList] ++ "paths:".toList :: ["  all:".toList])
        = some (addOk emptyMirror "example.org:9999".toList "cam1".toList, file')
      ∧ deletertspurl litSearch "cam1".toList file'
        = some (deleteOk, ["rtspPort: 8554".toList] ++ "paths:".toList :: ["  all:".toList]) :=
  ⟨by decide, by decide, by decide, by decide, by decide, by decide, by decide, by decide,
    by decide, by decide, by decide,
    add_then_delete_identity emptyMirror "example.org:9999".toList "cam1".toList
      "rtsp://10.0.0.1/live".toList "paths:".toList ["rtspPort: 8554".toList] ["  all:".toList]
      (by decide) (by decide) (by decide) (by decide) (by decide) (by decide) (by decide)
      (by decide) (by decide) (by decide) (by decide) (by decide)⟩

end Pprof
